import Mathlib

/-!
Verification development for the `KatsEnsemble` decomposition-based ensemble
forecaster (`kats_ensemble.py`).  The Python code is shallowly embedded:
pandas/numpy cell values become `PVal` (a rational or not-a-number),
dataframes become lists of `PVal`, dictionaries become association lists, and
machine-float arithmetic is modelled by exact rational arithmetic.
-/

namespace KatsEnsemble

/-- A pandas cell value: either a rational number or not-a-number (`np.nan`). -/
inductive PVal where
  | nan : PVal
  | num : ℚ → PVal
deriving DecidableEq, Repr

/-- Addition with `nan` propagation, as numpy/pandas elementwise `+` behaves. -/
def PVal.add : PVal → PVal → PVal
  | PVal.num a, PVal.num b => PVal.num (a + b)
  | _, _ => PVal.nan

/-- Multiplication with `nan` propagation, as numpy/pandas elementwise `*` behaves. -/
def PVal.mul : PVal → PVal → PVal
  | PVal.num a, PVal.num b => PVal.num (a * b)
  | _, _ => PVal.nan

/-- `isnull` test of a pandas cell. -/
def PVal.isnull : PVal → Bool
  | PVal.nan => true
  | PVal.num _ => false

/-- `sys.float_info.epsilon`, the machine epsilon of a 64-bit float, as an
exact rational. -/
def machineEpsilon : ℚ := 1 / 2 ^ 52

/-!
### Error-to-weight conversion

Embedded from `_backtester_all` (kats_ensemble.py lines 657-666):
```
self.errors = {model: res.get() for model, res in backtesters.items()}
original_weights = {
    model: 1 / (err + sys.float_info.epsilon)
    for model, err in self.errors.items()
}
weights = {
    model: err / sum(original_weights.values())
    for model, err in original_weights.items()
}
```
Note that the second comprehension iterates over `original_weights.items()`,
so the `err` bound there is the reciprocal `1 / (error + eps)`, not the raw
error.  The dictionary is modelled by the list of its values in insertion
order; `eps` is kept as a parameter standing for `sys.float_info.epsilon`.
-/

/-- Weights computed by `_backtester_all` from the list of per-model backtest
errors (in model order). -/
def backtesterWeights (eps : ℚ) (errs : List ℚ) : List ℚ :=
  let original_weights := errs.map (fun err => 1 / (err + eps))
  original_weights.map (fun err => err / original_weights.sum)

/-- Weights computed by `forecast` (kats_ensemble.py lines 486-498) from
`self.err`; the code is textually the same computation as `_backtester_all`. -/
def forecastWeights (eps : ℚ) (errs : List ℚ) : List ℚ :=
  let original_weights := errs.map (fun err => 1 / (err + eps))
  original_weights.map (fun err => err / original_weights.sum)

/-- The weight formula as the specification states it:
`weight[m] = (1/(error[m]+eps)) / sum_k (1/(error[k]+eps))`. -/
def specWeightFormula (eps : ℚ) (errs : List ℚ) : List ℚ :=
  errs.map (fun e => (1 / (e + eps)) / (errs.map (fun k => 1 / (k + eps))).sum)

lemma backtesterWeights_eq_spec (eps : ℚ) (errs : List ℚ) :
    backtesterWeights eps errs = specWeightFormula eps errs := by
  simp [backtesterWeights, specWeightFormula, List.map_map, Function.comp]

lemma sum_map_div (l : List ℚ) (s : ℚ) :
    (l.map (fun x => x / s)).sum = l.sum / s := by
  induction l with
  | nil => simp
  | cons x xs ih => simp [ih, add_div]

/-- Claim C1: for every non-empty error mapping, the derived weight of each
model `m` equals `(1/(error[m]+eps)) / sum_k (1/(error[k]+eps))`, and this is
the formula computed by both the backtester (`_backtester_all`) and the
forecast path (`forecast`). -/
theorem C1_weight_formula (eps : ℚ) (errs : List ℚ) (_hne : errs ≠ []) :
    backtesterWeights eps errs = specWeightFormula eps errs ∧
    forecastWeights eps errs = specWeightFormula eps errs := by
  exact ⟨backtesterWeights_eq_spec eps errs, backtesterWeights_eq_spec eps errs⟩

/-- Witness for C1 at a concrete non-empty error list. -/
theorem C1_weight_formula_witness :
    backtesterWeights machineEpsilon [2, 3] = specWeightFormula machineEpsilon [2, 3] ∧
    forecastWeights machineEpsilon [2, 3] = specWeightFormula machineEpsilon [2, 3] :=
  C1_weight_formula machineEpsilon [2, 3] (by simp)

lemma getD_map_div (l : List ℚ) (s : ℚ) (i : ℕ) (h : i < l.length) :
    (l.map (fun x => x / s)).getD i 0 = l.getD i 0 / s := by
  rw [List.getD_eq_getElem _ _ (by simpa using h), List.getD_eq_getElem _ _ h]
  simp

/-- Claim C2: weights derived from non-negative backtest errors are
non-negative, sum to 1, and are strictly inversely monotone in error. -/
theorem C2_weights_properties (eps : ℚ) (errs : List ℚ)
    (heps : 0 < eps) (hnn : ∀ e ∈ errs, 0 ≤ e) (hne : errs ≠ []) :
    (∀ w ∈ backtesterWeights eps errs, 0 ≤ w) ∧
    (backtesterWeights eps errs).sum = 1 ∧
    (∀ i j, i < errs.length → j < errs.length →
      errs.getD i 0 < errs.getD j 0 →
      (backtesterWeights eps errs).getD j 0 < (backtesterWeights eps errs).getD i 0) := by
  have hposmem : ∀ w ∈ errs.map (fun err => 1 / (err + eps)), 0 < w := by
    intro w hw
    rcases List.mem_map.mp hw with ⟨e, he, rfl⟩
    have : 0 < e + eps := by have := hnn e he; linarith
    positivity
  have hS : 0 < (errs.map (fun err => 1 / (err + eps))).sum := by
    apply List.sum_pos _ hposmem
    simpa using hne
  refine ⟨?_, ?_, ?_⟩
  · intro w hw
    rcases List.mem_map.mp hw with ⟨v, hv, rfl⟩
    exact le_of_lt (div_pos (hposmem v hv) hS)
  · rw [backtesterWeights]
    rw [sum_map_div]
    exact div_self (ne_of_gt hS)
  · intro i j hi hj hij
    have hmapi : i < (errs.map (fun err => 1 / (err + eps))).length := by simpa using hi
    have hmapj : j < (errs.map (fun err => 1 / (err + eps))).length := by simpa using hj
    rw [backtesterWeights]
    rw [getD_map_div _ _ i hmapi, getD_map_div _ _ j hmapj]
    have hgi : (errs.map (fun err => 1 / (err + eps))).getD i 0
        = 1 / (errs.getD i 0 + eps) := by
      rw [List.getD_eq_getElem _ _ hmapi, List.getD_eq_getElem _ _ hi]
      simp
    have hgj : (errs.map (fun err => 1 / (err + eps))).getD j 0
        = 1 / (errs.getD j 0 + eps) := by
      rw [List.getD_eq_getElem _ _ hmapj, List.getD_eq_getElem _ _ hj]
      simp
    rw [hgi, hgj]
    have hei : 0 ≤ errs.getD i 0 := by
      apply hnn
      rw [List.getD_eq_getElem _ _ hi]
      exact List.getElem_mem hi
    have hlt : 1 / (errs.getD j 0 + eps) < 1 / (errs.getD i 0 + eps) :=
      one_div_lt_one_div_of_lt (by linarith) (by linarith)
    exact (div_lt_div_iff_of_pos_right hS).mpr hlt

/-- Witness for C2: errors `[0, 1]` with `eps = 1` give weights `[2/3, 1/3]`
whose properties follow from `C2_weights_properties`. -/
theorem C2_weights_properties_witness :
    (backtesterWeights 1 [0, 1]).sum = 1 :=
  (C2_weights_properties 1 [0, 1] (by norm_num)
    (by intro e he; simp at he; rcases he with h | h <;> simp [h]) (by simp)).2.1

/-!
### Worker-pool sizing

All three default executors size their pool the same way
(kats_ensemble.py lines 268, 513, 643):
```
num_process = min(len(MODELS), (cpu_count() - 1) // 2)
```
`MODELS` is the registry of model families (7 entries); `cpu_count()` is the
available parallelism, a positive integer.
-/

/-- Keys of the `MODELS` registry (kats_ensemble.py lines 40-48). -/
def MODELS_keys : List String :=
  ["arima", "holtwinters", "sarima", "prophet", "linear", "quadratic", "theta"]

/-- Keys of the `SMODELS` registry of seasonal-capable families
(kats_ensemble.py lines 51-55); the `sarima` entry is commented out. -/
def SMODELS_keys : List String := ["prophet", "theta"]

/-- Pool size computed by the default `fitExecutor` (line 268). -/
def fitExecutor_num_process (cpu : ℕ) : ℕ :=
  min MODELS_keys.length ((cpu - 1) / 2)

/-- Pool size computed by the default `forecastExecutor` (line 513). -/
def forecastExecutor_num_process (cpu : ℕ) : ℕ :=
  min MODELS_keys.length ((cpu - 1) / 2)

/-- Pool size computed by `_backtester_all` (line 643). -/
def backtester_num_process (cpu : ℕ) : ℕ :=
  min MODELS_keys.length ((cpu - 1) / 2)

/-- Counterexample to claim C3: with `cpu_count() = 2` (also `= 1`) the
computed pool size is `0`, not at least `1`. -/
theorem C3_pool_size_counterexample :
    fitExecutor_num_process 2 = 0 ∧ ¬ (1 ≤ fitExecutor_num_process 2) := by
  decide

/-- Claim C3 (amended): all three default executors compute the pool size
`min(#registered model families, (available_parallelism - 1) div 2)` with 7
registered families, and the result is at least 1 exactly when the available
parallelism is at least 3 (for 1 or 2 CPUs it is 0). -/
theorem C3_pool_size (cpu : ℕ) :
    fitExecutor_num_process cpu = min MODELS_keys.length ((cpu - 1) / 2) ∧
    forecastExecutor_num_process cpu = min MODELS_keys.length ((cpu - 1) / 2) ∧
    backtester_num_process cpu = min MODELS_keys.length ((cpu - 1) / 2) ∧
    MODELS_keys.length = 7 ∧
    (1 ≤ fitExecutor_num_process cpu ↔ 3 ≤ cpu) := by
  refine ⟨rfl, rfl, rfl, rfl, ?_⟩
  have h7 : MODELS_keys.length = 7 := rfl
  rw [fitExecutor_num_process, h7]
  omega

/-!
### Re-seasonalization

Embedded from the static method `reseasonalize` (kats_ensemble.py lines
171-242).  A per-model forecast dataframe `desea_pred` is modelled by
`DeseaPred`: the `fcst` column plus optionally present `fcst_lower` /
`fcst_upper` columns.  Its output always has all three columns (`ModelFcst`).
The source computes `rep = math.trunc(1 + steps / seasonality_length)` with
exact value `1 + steps // seasonality_length`, takes
`seasonality_unit = sea_data.value[-seasonality_length:]`, and combines
`np.tile(seasonality_unit, rep)[:steps]` with each column.
-/

/-- A per-model forecast of the deseasonalized component: the `fcst` column
and, when the model has a native confidence interval, the
(`fcst_lower`, `fcst_upper`) columns. -/
structure DeseaPred where
  fcst : List PVal
  ci : Option (List PVal × List PVal)
deriving DecidableEq, Repr

/-- A per-model forecast with all three columns present. -/
structure ModelFcst where
  fcst : List PVal
  lower : List PVal
  upper : List PVal
deriving DecidableEq, Repr

/-- Add a rational (a seasonal-unit entry) to a pandas cell. -/
def PVal.addQ (v : PVal) (q : ℚ) : PVal := v.add (PVal.num q)

/-- Multiply a pandas cell by a rational (a seasonal-unit entry). -/
def PVal.mulQ (v : PVal) (q : ℚ) : PVal := v.mul (PVal.num q)

/-- `np.tile(seasonality_unit, rep)[:steps]` where
`seasonality_unit = sea_data.value[-seasonality_length:]` and
`rep = math.trunc(1 + steps / seasonality_length) = 1 + steps // seasonality_length`. -/
def tiledSeasonalUnit (sea : List ℚ) (seasonality_length steps : ℕ) : List ℚ :=
  (List.flatten (List.replicate (1 + steps / seasonality_length)
    (sea.drop (sea.length - seasonality_length)))).take steps

/-- Re-seasonalize one model's forecast (the loop body of `reseasonalize`). -/
def reseasonalizeOne (sea : List ℚ) (decomposition_method : String)
    (seasonality_length steps : ℕ) (desea_pred : DeseaPred) : ModelFcst :=
  if decomposition_method = "additive" then
    match desea_pred.ci with
    | some (lo, hi) =>
      { fcst := List.zipWith PVal.addQ desea_pred.fcst
          (tiledSeasonalUnit sea seasonality_length steps)
        lower := List.zipWith PVal.addQ lo (tiledSeasonalUnit sea seasonality_length steps)
        upper := List.zipWith PVal.addQ hi (tiledSeasonalUnit sea seasonality_length steps) }
    | none =>
      { fcst := List.zipWith PVal.addQ desea_pred.fcst
          (tiledSeasonalUnit sea seasonality_length steps)
        lower := List.replicate desea_pred.fcst.length PVal.nan
        upper := List.replicate desea_pred.fcst.length PVal.nan }
  else
    match desea_pred.ci with
    | some (lo, hi) =>
      { fcst := List.zipWith PVal.mulQ desea_pred.fcst
          (tiledSeasonalUnit sea seasonality_length steps)
        lower := List.zipWith PVal.mulQ lo (tiledSeasonalUnit sea seasonality_length steps)
        upper := List.zipWith PVal.mulQ hi (tiledSeasonalUnit sea seasonality_length steps) }
    | none =>
      { fcst := List.zipWith PVal.mulQ desea_pred.fcst
          (tiledSeasonalUnit sea seasonality_length steps)
        lower := List.replicate desea_pred.fcst.length (PVal.num 0)
        upper := List.replicate desea_pred.fcst.length (PVal.num 0) }

/-- The full `reseasonalize` over the dictionary of per-model forecasts,
modelled as an association list in insertion order. -/
def reseasonalize (sea : List ℚ) (desea_predict : List (String × DeseaPred))
    (decomposition_method : String) (seasonality_length steps : ℕ) :
    List (String × ModelFcst) :=
  desea_predict.map (fun kv =>
    (kv.1, reseasonalizeOne sea decomposition_method seasonality_length steps kv.2))

lemma length_flatten_replicate (u : List ℚ) (n : ℕ) :
    (List.flatten (List.replicate n u)).length = n * u.length := by
  induction n with
  | zero => simp
  | succ m ih =>
    rw [List.replicate_succ, List.flatten_cons, List.length_append, ih, Nat.succ_mul]
    omega

lemma getElem?_flatten_replicate (u : List ℚ) (p : ℕ) (hu : u.length = p) (_hp : 0 < p) :
    ∀ rep i : ℕ, i < rep * p →
      (List.flatten (List.replicate rep u))[i]? = u[i % p]? := by
  intro rep
  induction rep with
  | zero => intro i h; omega
  | succ n ih =>
    intro i h
    have h' : i < n * p + p := by rw [Nat.succ_mul] at h; exact h
    rw [List.replicate_succ, List.flatten_cons, List.getElem?_append]
    by_cases hip : i < p
    · rw [Nat.mod_eq_of_lt hip]
      simp [hu, hip]
    · have hle : p ≤ i := Nat.le_of_not_lt hip
      rw [if_neg (by omega : ¬ i < u.length)]
      rw [hu, ih (i - p) (by omega)]
      congr 1
      conv_rhs => rw [show i = p + (i - p) by omega]
      rw [Nat.add_mod_left]

lemma steps_le_tiles (p steps : ℕ) (hp : 0 < p) : steps ≤ (1 + steps / p) * p := by
  have e1 := Nat.div_add_mod steps p
  have e2 : steps % p < p := Nat.mod_lt _ hp
  have e3 : (1 + steps / p) * p = p + p * (steps / p) := by ring
  omega

lemma tiledSeasonalUnit_length (sea : List ℚ) (p steps : ℕ)
    (hp : 0 < p) (hps : p ≤ sea.length) :
    (tiledSeasonalUnit sea p steps).length = steps := by
  rw [tiledSeasonalUnit, List.length_take, length_flatten_replicate]
  have hd : (sea.drop (sea.length - p)).length = p := by
    rw [List.length_drop]; omega
  rw [hd]
  have := steps_le_tiles p steps hp
  omega

lemma tiledSeasonalUnit_getD (sea : List ℚ) (p steps : ℕ)
    (hp : 0 < p) (hps : p ≤ sea.length) (i : ℕ) (hi : i < steps) :
    (tiledSeasonalUnit sea p steps).getD i 0
      = (sea.drop (sea.length - p)).getD (i % p) 0 := by
  have hd : (sea.drop (sea.length - p)).length = p := by
    rw [List.length_drop]; omega
  have hrep := steps_le_tiles p steps hp
  rw [List.getD_eq_getElem?_getD, List.getD_eq_getElem?_getD, tiledSeasonalUnit,
    List.getElem?_take, if_pos hi,
    getElem?_flatten_replicate (sea.drop (sea.length - p)) p hd hp
      (1 + steps / p) i (by omega)]

lemma getD_zipWith_unit (op : PVal → ℚ → PVal) (a : List PVal) (sea : List ℚ)
    (p steps i : ℕ) (hp : 0 < p) (hps : p ≤ sea.length)
    (hlen : a.length = steps) (hi : i < steps) :
    (List.zipWith op a (tiledSeasonalUnit sea p steps)).getD i PVal.nan
      = op (a.getD i PVal.nan) ((sea.drop (sea.length - p)).getD (i % p) 0) := by
  have hu := tiledSeasonalUnit_length sea p steps hp hps
  have ha : i < a.length := by omega
  have hut : i < (tiledSeasonalUnit sea p steps).length := by omega
  have hz : i < (List.zipWith op a (tiledSeasonalUnit sea p steps)).length := by
    rw [List.length_zipWith]; omega
  rw [List.getD_eq_getElem _ _ hz, List.getElem_zipWith,
    ← List.getD_eq_getElem a PVal.nan ha,
    ← List.getD_eq_getElem (tiledSeasonalUnit sea p steps) 0 hut,
    tiledSeasonalUnit_getD sea p steps hp hps i hi]

/-- Claim C5: in additive re-seasonalization, the seasonal unit is the last
`p` values of the seasonal component tiled `1 + steps / p` times and cut to
exactly `steps` values; a model with native bounds gets the unit added to all
three columns elementwise, and a model without bounds gets it added only to
the point forecast while both bounds become not-a-number. -/
theorem C5_additive_reseasonalization (sea : List ℚ) (p steps : ℕ)
    (f g : DeseaPred) (lo hi : List PVal)
    (hp : 0 < p) (hps : p ≤ sea.length)
    (hfci : f.ci = some (lo, hi)) (hflen : f.fcst.length = steps)
    (hlolen : lo.length = steps) (hhilen : hi.length = steps)
    (hgci : g.ci = none) (hglen : g.fcst.length = steps) :
    (tiledSeasonalUnit sea p steps
      = (List.flatten (List.replicate (1 + steps / p)
          (sea.drop (sea.length - p)))).take steps) ∧
    ((tiledSeasonalUnit sea p steps).length = steps) ∧
    (∀ i, i < steps →
      (reseasonalizeOne sea "additive" p steps f).fcst.getD i PVal.nan
        = (f.fcst.getD i PVal.nan).add
            (PVal.num ((sea.drop (sea.length - p)).getD (i % p) 0)) ∧
      (reseasonalizeOne sea "additive" p steps f).lower.getD i PVal.nan
        = (lo.getD i PVal.nan).add
            (PVal.num ((sea.drop (sea.length - p)).getD (i % p) 0)) ∧
      (reseasonalizeOne sea "additive" p steps f).upper.getD i PVal.nan
        = (hi.getD i PVal.nan).add
            (PVal.num ((sea.drop (sea.length - p)).getD (i % p) 0))) ∧
    (∀ i, i < steps →
      (reseasonalizeOne sea "additive" p steps g).fcst.getD i PVal.nan
        = (g.fcst.getD i PVal.nan).add
            (PVal.num ((sea.drop (sea.length - p)).getD (i % p) 0))) ∧
    ((reseasonalizeOne sea "additive" p steps g).lower
        = List.replicate steps PVal.nan) ∧
    ((reseasonalizeOne sea "additive" p steps g).upper
        = List.replicate steps PVal.nan) := by
  refine ⟨rfl, tiledSeasonalUnit_length sea p steps hp hps, ?_, ?_, ?_, ?_⟩
  · intro i hi'
    simp only [reseasonalizeOne, hfci, if_pos rfl]
    exact ⟨getD_zipWith_unit PVal.addQ f.fcst sea p steps i hp hps hflen hi',
      getD_zipWith_unit PVal.addQ lo sea p steps i hp hps hlolen hi',
      getD_zipWith_unit PVal.addQ hi sea p steps i hp hps hhilen hi'⟩
  · intro i hi'
    simp only [reseasonalizeOne, hgci, if_pos rfl]
    exact getD_zipWith_unit PVal.addQ g.fcst sea p steps i hp hps hglen hi'
  · simp only [reseasonalizeOne, hgci, if_pos rfl, ite_true, hglen]
  · simp only [reseasonalizeOne, hgci, if_pos rfl, ite_true, hglen]

/-- Witness for C5 at `sea = [1, 2]`, `p = 2`, `steps = 3`, a model with
bounds and a model without. -/
theorem C5_additive_reseasonalization_witness :
    (tiledSeasonalUnit [1, 2] 2 3).length = 3 :=
  (C5_additive_reseasonalization [1, 2] 2 3
    ⟨[PVal.num 1, PVal.num 2, PVal.num 3], some ([PVal.num 0, PVal.num 1, PVal.num 2],
      [PVal.num 2, PVal.num 3, PVal.num 4])⟩
    ⟨[PVal.num 5, PVal.num 6, PVal.num 7], none⟩
    [PVal.num 0, PVal.num 1, PVal.num 2] [PVal.num 2, PVal.num 3, PVal.num 4]
    (by decide) (by decide) rfl rfl rfl rfl rfl rfl).2.1

/-- Claim C4: in multiplicative re-seasonalization, a per-model forecast
without native bounds has its point forecast multiplied elementwise by the
tiled seasonal unit and both output bounds set to zero, whereas the additive
path sets absent bounds to not-a-number. -/
theorem C4_multiplicative_no_ci (sea : List ℚ) (p steps : ℕ) (g : DeseaPred)
    (hp : 0 < p) (hps : p ≤ sea.length)
    (hgci : g.ci = none) (hglen : g.fcst.length = steps) :
    (∀ i, i < steps →
      (reseasonalizeOne sea "multiplicative" p steps g).fcst.getD i PVal.nan
        = (g.fcst.getD i PVal.nan).mul
            (PVal.num ((sea.drop (sea.length - p)).getD (i % p) 0))) ∧
    ((reseasonalizeOne sea "multiplicative" p steps g).lower
        = List.replicate steps (PVal.num 0)) ∧
    ((reseasonalizeOne sea "multiplicative" p steps g).upper
        = List.replicate steps (PVal.num 0)) ∧
    ((reseasonalizeOne sea "additive" p steps g).lower
        = List.replicate steps PVal.nan) ∧
    ((reseasonalizeOne sea "additive" p steps g).upper
        = List.replicate steps PVal.nan) := by
  have hmul : ¬ ("multiplicative" = "additive") := by decide
  refine ⟨?_, ?_, ?_, ?_, ?_⟩
  · intro i hi'
    simp only [reseasonalizeOne, hgci, if_neg hmul]
    exact getD_zipWith_unit PVal.mulQ g.fcst sea p steps i hp hps hglen hi'
  · simp only [reseasonalizeOne, hgci, if_neg hmul, hglen]
  · simp only [reseasonalizeOne, hgci, if_neg hmul, hglen]
  · simp only [reseasonalizeOne, hgci, if_pos rfl, ite_true, hglen]
  · simp only [reseasonalizeOne, hgci, if_pos rfl, ite_true, hglen]

/-- Witness for C4 at `sea = [1, 2]`, `p = 2`, `steps = 2`, a model without
bounds. -/
theorem C4_multiplicative_no_ci_witness :
    (reseasonalizeOne [1, 2] "multiplicative" 2 2
        ⟨[PVal.num 5, PVal.num 6], none⟩).lower
      = List.replicate 2 (PVal.num 0) :=
  (C4_multiplicative_no_ci [1, 2] 2 2 ⟨[PVal.num 5, PVal.num 6], none⟩
    (by decide) (by decide) rfl rfl).2.1

/-!
### Aggregation

Embedded from `aggregate` (kats_ensemble.py lines 543-586) and
`clean_dummy_CI` (lines 588-599).  The dictionary `self.predicted` is
modelled as the list of per-model forecasts in insertion order; the per-row
operations of pandas (`median(axis=1)` skipping not-a-number, `.dot` with a
weight vector) are modelled over each row of the stacked columns.
-/

/-- `df.replace(0, np.nan)` on one stacked column: every cell equal to zero
becomes not-a-number; other cells (including not-a-number) are unchanged. -/
def replaceZeroWithNaN (col : List PVal) : List PVal :=
  col.map (fun v => if v = PVal.num 0 then PVal.nan else v)

/-- `df.fillna(0)` on one stacked column. -/
def fillNaNWithZero (col : List PVal) : List PVal :=
  col.map (fun v => if v = PVal.nan then PVal.num 0 else v)

/-- `clean_dummy_CI` (lines 588-599) applied to the stacked
`fcst_lower` / `fcst_upper` columns. -/
def clean_dummy_CI (use_zero : Bool) (lower upper : List (List PVal)) :
    List (List PVal) × List (List PVal) :=
  if use_zero then (lower.map fillNaNWithZero, upper.map fillNaNWithZero)
  else (lower.map replaceZeroWithNaN, upper.map replaceZeroWithNaN)

/-- Insert a rational into a sorted list (ascending). -/
def insertSorted (x : ℚ) : List ℚ → List ℚ
  | [] => [x]
  | y :: ys => if x ≤ y then x :: y :: ys else y :: insertSorted x ys

/-- Insertion sort, used to define the statistical median. -/
def sortQ : List ℚ → List ℚ
  | [] => []
  | x :: xs => insertSorted x (sortQ xs)

/-- The statistical median of a list of rationals: middle of the sorted list,
or the mean of the two middle elements for an even count. -/
def medianQ (xs : List ℚ) : ℚ :=
  if (sortQ xs).length % 2 = 1 then (sortQ xs).getD ((sortQ xs).length / 2) 0
  else ((sortQ xs).getD ((sortQ xs).length / 2 - 1) 0
    + (sortQ xs).getD ((sortQ xs).length / 2) 0) / 2

/-- The numeric (non-not-a-number) entries of a row. -/
def pnumerics (vals : List PVal) : List ℚ :=
  vals.filterMap (fun v => match v with | PVal.num q => some q | PVal.nan => none)

/-- Pandas `median` over one row: not-a-number entries are skipped; the
median of an all-not-a-number row is not-a-number. -/
def pmedian (vals : List PVal) : PVal :=
  if pnumerics vals = [] then PVal.nan else PVal.num (medianQ (pnumerics vals))

/-- Row `i` of the stacked per-model columns. -/
def rowVals (cols : List (List PVal)) (i : ℕ) : List PVal :=
  cols.map (fun c => c.getD i PVal.nan)

/-- The median branch of `aggregate` (lines 561-569): stack the per-model
columns, clean dummy confidence intervals with `use_zero=False`, then take
the per-row median of each column. -/
def aggregateMedian (predicted : List ModelFcst) (steps : ℕ) :
    List PVal × List PVal × List PVal :=
  ((List.range steps).map (fun i => pmedian (rowVals (predicted.map ModelFcst.fcst) i)),
   (List.range steps).map (fun i => pmedian (rowVals
     (clean_dummy_CI false (predicted.map ModelFcst.lower)
       (predicted.map ModelFcst.upper)).1 i)),
   (List.range steps).map (fun i => pmedian (rowVals
     (clean_dummy_CI false (predicted.map ModelFcst.lower)
       (predicted.map ModelFcst.upper)).2 i)))

/-- Pandas `.dot` of one row with the weight vector, with not-a-number
propagation. -/
def pdot (vals : List PVal) (ws : List ℚ) : PVal :=
  (List.zipWith PVal.mulQ vals ws).foldl PVal.add (PVal.num 0)

/-- `isnull().values.any()` over stacked columns. -/
def hasNaNCol (cols : List (List PVal)) : Bool :=
  cols.any (fun c => c.any PVal.isnull)

/-- The error message raised by the weighted-average branch of `aggregate`. -/
def errMsgCI : String := "Conf. interval contains NaN, please check individual model"

/-- The weighted-average branch of `aggregate` (lines 570-583): raise when a
stacked bound column contains not-a-number, otherwise take the per-row dot
product of each column with the weight vector. -/
def aggregateWeighted (predicted : List ModelFcst) (weights : List ℚ) (steps : ℕ) :
    Except String (List PVal × List PVal × List PVal) :=
  if hasNaNCol (predicted.map ModelFcst.lower) || hasNaNCol (predicted.map ModelFcst.upper) then
    Except.error errMsgCI
  else
    Except.ok
      ((List.range steps).map (fun i =>
          pdot (rowVals (predicted.map ModelFcst.fcst) i) weights),
       (List.range steps).map (fun i =>
          pdot (rowVals (predicted.map ModelFcst.lower) i) weights),
       (List.range steps).map (fun i =>
          pdot (rowVals (predicted.map ModelFcst.upper) i) weights))

lemma replaceZeroWithNaN_getD (col : List PVal) (i : ℕ) :
    (replaceZeroWithNaN col).getD i PVal.nan
      = if col.getD i PVal.nan = PVal.num 0 then PVal.nan else col.getD i PVal.nan := by
  by_cases h : i < col.length
  · have hm : i < (replaceZeroWithNaN col).length := by
      simpa [replaceZeroWithNaN] using h
    rw [List.getD_eq_getElem _ _ hm, List.getD_eq_getElem _ _ h]
    simp [replaceZeroWithNaN]
  · have h1 : col.length ≤ i := Nat.le_of_not_lt h
    have h2 : (replaceZeroWithNaN col).length ≤ i := by
      simpa [replaceZeroWithNaN] using h1
    rw [List.getD_eq_default _ _ h1, List.getD_eq_default _ _ h2]
    simp

lemma medianQ_pair (a b : ℚ) : medianQ [a, b] = (a + b) / 2 := by
  by_cases h : a ≤ b
  · simp [medianQ, sortQ, insertSorted, h]
  · simp [medianQ, sortQ, insertSorted, h]
    ring

lemma pmedian_two_of_three (a b : ℚ) :
    pmedian [PVal.num a, PVal.num b, PVal.nan] = PVal.num ((a + b) / 2) := by
  simp [pmedian, pnumerics, medianQ_pair]

/-- Claim C6: in median aggregation, zero cells of the stacked bound columns
are replaced by not-a-number (not-a-number cells are never replaced by zero),
and each output row is the median over the models whose (cleaned) value in
that row is numeric; on a 3-model batch where one model has not-a-number
bounds, the bound medians average the two remaining finite values. -/
theorem C6_median_aggregation (A B C : ModelFcst) (steps i : ℕ) (a b c d : ℚ)
    (hi : i < steps)
    (hAlo : A.lower.getD i PVal.nan = PVal.num a) (ha : a ≠ 0)
    (hBlo : B.lower.getD i PVal.nan = PVal.num b) (hb : b ≠ 0)
    (hClo : C.lower.getD i PVal.nan = PVal.nan)
    (hAup : A.upper.getD i PVal.nan = PVal.num c) (hc : c ≠ 0)
    (hBup : B.upper.getD i PVal.nan = PVal.num d) (hd : d ≠ 0)
    (hCup : C.upper.getD i PVal.nan = PVal.nan) :
    (∀ col : List PVal, ∀ j : ℕ,
      ((replaceZeroWithNaN col).getD j PVal.nan = PVal.nan ↔
        (col.getD j PVal.nan = PVal.nan ∨ col.getD j PVal.nan = PVal.num 0))) ∧
    ((aggregateMedian [A, B, C] steps).2.1)[i]?
      = some (PVal.num ((a + b) / 2)) ∧
    ((aggregateMedian [A, B, C] steps).2.2)[i]?
      = some (PVal.num ((c + d) / 2)) := by
  refine ⟨?_, ?_, ?_⟩
  · intro col j
    rw [replaceZeroWithNaN_getD]
    by_cases h : col.getD j PVal.nan = PVal.num 0
    · rw [if_pos h]
      exact ⟨fun _ => Or.inr h, fun _ => rfl⟩
    · rw [if_neg h]
      constructor
      · intro hn; exact Or.inl hn
      · intro hn; rcases hn with hn | hn
        · exact hn
        · exact absurd hn h
  · have hrow : rowVals (clean_dummy_CI false ([A, B, C].map ModelFcst.lower)
        ([A, B, C].map ModelFcst.upper)).1 i
        = [PVal.num a, PVal.num b, PVal.nan] := by
      simp only [clean_dummy_CI, Bool.false_eq_true, if_neg, List.map_cons, List.map_nil,
        rowVals, ite_false]
      rw [replaceZeroWithNaN_getD, replaceZeroWithNaN_getD, replaceZeroWithNaN_getD]
      rw [hAlo, hBlo, hClo]
      simp [ha, hb]
    simp only [aggregateMedian]
    rw [List.getElem?_map, List.getElem?_range hi, Option.map_some']
    rw [hrow, pmedian_two_of_three]
  · have hrow : rowVals (clean_dummy_CI false ([A, B, C].map ModelFcst.lower)
        ([A, B, C].map ModelFcst.upper)).2 i
        = [PVal.num c, PVal.num d, PVal.nan] := by
      simp only [clean_dummy_CI, Bool.false_eq_true, if_neg, List.map_cons, List.map_nil,
        rowVals, ite_false]
      rw [replaceZeroWithNaN_getD, replaceZeroWithNaN_getD, replaceZeroWithNaN_getD]
      rw [hAup, hBup, hCup]
      simp [hc, hd]
    simp only [aggregateMedian]
    rw [List.getElem?_map, List.getElem?_range hi, Option.map_some']
    rw [hrow, pmedian_two_of_three]

/-- Witness for C6 on a concrete 3-model batch with one all-not-a-number
bound model. -/
theorem C6_median_aggregation_witness :
    ((aggregateMedian
        [⟨[PVal.num 5], [PVal.num 1], [PVal.num 3]⟩,
         ⟨[PVal.num 6], [PVal.num 2], [PVal.num 4]⟩,
         ⟨[PVal.num 7], [PVal.nan], [PVal.nan]⟩] 1).2.1)[0]?
      = some (PVal.num ((1 + 2) / 2)) :=
  (C6_median_aggregation
    ⟨[PVal.num 5], [PVal.num 1], [PVal.num 3]⟩
    ⟨[PVal.num 6], [PVal.num 2], [PVal.num 4]⟩
    ⟨[PVal.num 7], [PVal.nan], [PVal.nan]⟩
    1 0 1 2 3 4 (by decide) rfl (by decide) rfl (by decide) rfl
    rfl (by decide) rfl (by decide) rfl).2.1

lemma isnull_eq_true_iff (v : PVal) : v.isnull = true ↔ v = PVal.nan := by
  cases v <;> simp [PVal.isnull]

lemma hasNaNCol_iff (cols : List (List PVal)) :
    hasNaNCol cols = true ↔ ∃ c ∈ cols, PVal.nan ∈ c := by
  rw [hasNaNCol, List.any_eq_true]
  constructor
  · rintro ⟨c, hc, h⟩
    rcases List.any_eq_true.mp h with ⟨v, hv, hvn⟩
    have hvn' : v = PVal.nan := (isnull_eq_true_iff v).mp hvn
    exact ⟨c, hc, hvn' ▸ hv⟩
  · rintro ⟨c, hc, h⟩
    exact ⟨c, hc, List.any_eq_true.mpr ⟨PVal.nan, h, rfl⟩⟩

/-- Claim C7: the weighted-average branch of `aggregate` raises its
validation error exactly when some model's lower or upper bound column
contains a not-a-number cell; with no missing bound it returns the per-row
dot products of the stacked columns with the weight vector. -/
theorem C7_weighted_aggregation (predicted : List ModelFcst) (weights : List ℚ)
    (steps : ℕ) :
    (aggregateWeighted predicted weights steps = Except.error errMsgCI ↔
      ∃ m ∈ predicted, PVal.nan ∈ m.lower ∨ PVal.nan ∈ m.upper) ∧
    ((∀ m ∈ predicted, PVal.nan ∉ m.lower ∧ PVal.nan ∉ m.upper) →
      aggregateWeighted predicted weights steps = Except.ok
        ((List.range steps).map (fun i =>
            pdot (rowVals (predicted.map ModelFcst.fcst) i) weights),
         (List.range steps).map (fun i =>
            pdot (rowVals (predicted.map ModelFcst.lower) i) weights),
         (List.range steps).map (fun i =>
            pdot (rowVals (predicted.map ModelFcst.upper) i) weights))) := by
  have hcond : (hasNaNCol (predicted.map ModelFcst.lower)
      || hasNaNCol (predicted.map ModelFcst.upper)) = true ↔
      ∃ m ∈ predicted, PVal.nan ∈ m.lower ∨ PVal.nan ∈ m.upper := by
    rw [Bool.or_eq_true, hasNaNCol_iff, hasNaNCol_iff]
    constructor
    · rintro (⟨c, hc, h⟩ | ⟨c, hc, h⟩)
      · rcases List.mem_map.mp hc with ⟨m, hm, rfl⟩
        exact ⟨m, hm, Or.inl h⟩
      · rcases List.mem_map.mp hc with ⟨m, hm, rfl⟩
        exact ⟨m, hm, Or.inr h⟩
    · rintro ⟨m, hm, h | h⟩
      · exact Or.inl ⟨m.lower, List.mem_map.mpr ⟨m, hm, rfl⟩, h⟩
      · exact Or.inr ⟨m.upper, List.mem_map.mpr ⟨m, hm, rfl⟩, h⟩
  constructor
  · rw [aggregateWeighted]
    by_cases h : (hasNaNCol (predicted.map ModelFcst.lower)
        || hasNaNCol (predicted.map ModelFcst.upper)) = true
    · rw [if_pos h]
      simp [hcond.mp h]
    · rw [if_neg h]
      constructor
      · intro hfalse; exact absurd hfalse (by simp)
      · intro hex; exact absurd (hcond.mpr hex) h
  · intro hno
    rw [aggregateWeighted, if_neg]
    intro h
    rcases hcond.mp h with ⟨m, hm, hcase⟩
    rcases hcase with hcase | hcase
    · exact (hno m hm).1 hcase
    · exact (hno m hm).2 hcase

/-- Witness for C7: a single model with a not-a-number lower bound makes the
weighted-average aggregation raise the validation error. -/
theorem C7_weighted_aggregation_witness :
    aggregateWeighted [⟨[PVal.num 1], [PVal.nan], [PVal.num 2]⟩] [1] 1
      = Except.error errMsgCI :=
  (C7_weighted_aggregation [⟨[PVal.num 1], [PVal.nan], [PVal.num 2]⟩] [1] 1).1.mpr
    ⟨⟨[PVal.num 1], [PVal.nan], [PVal.num 2]⟩, by simp, Or.inl (by simp)⟩

/-!
### Seasonal fit batch

Embedded from `fit` (kats_ensemble.py lines 308-328).  When seasonality is
detected, the code copies the configured model list and, looping over the
original list, appends a copy suffixed `"_smodel"` for each model whose
lowercased name is a key of `SMODELS`; the whole batch is then fitted on the
deseasonalized data.  Without seasonality the configured list is fitted on
the raw data.
-/

/-- One configured model spec (`BaseModelParams`); only the name matters for
batch construction. -/
structure BaseModelParams where
  model_name : String
deriving DecidableEq, Repr

/-- Python `str.lower()`, applied characterwise (model names are ASCII). -/
def lowerString (s : String) : String := String.mk (s.data.map Char.toLower)

/-- `m.model_name.lower() in SMODELS.keys()` (line 318). -/
def isSeasonalCapable (m : BaseModelParams) : Bool :=
  SMODELS_keys.contains (lowerString m.model_name)

/-- The suffixed copy created at lines 319-320. -/
def toSModel (m : BaseModelParams) : BaseModelParams :=
  { m with model_name := m.model_name ++ "_smodel" }

/-- The loop of lines 316-321: start from a copy of the configured list and
append the suffixed copy of every seasonal-capable model. -/
def seasonalFitBatch (models : List BaseModelParams) : List BaseModelParams :=
  models.foldl (fun given_models m =>
    if isSeasonalCapable m then given_models ++ [toSModel m] else given_models) models

/-- Which data a fitted artifact was trained on. -/
inductive DataChoice where
  | desea : DataChoice
  | raw : DataChoice
deriving DecidableEq, Repr

/-- The batch passed to the fit executor, with the data each model is fitted
on: deseasonalized for the whole seasonal batch (lines 324-328), raw for the
non-seasonal branch (lines 330-336). -/
def fitBatchWithData (seasonality : Bool) (models : List BaseModelParams) :
    List (BaseModelParams × DataChoice) :=
  if seasonality then (seasonalFitBatch models).map (fun m => (m, DataChoice.desea))
  else models.map (fun m => (m, DataChoice.raw))

lemma foldl_append_if (p : BaseModelParams → Bool) (f : BaseModelParams → BaseModelParams) :
    ∀ (l init : List BaseModelParams),
      l.foldl (fun acc m => if p m then acc ++ [f m] else acc) init
        = init ++ (l.filter p).map f := by
  intro l
  induction l with
  | nil => intro init; simp
  | cons x xs ih =>
    intro init
    cases hpx : p x
    · simp [List.foldl_cons, hpx, List.filter_cons, ih]
    · simp [List.foldl_cons, hpx, List.filter_cons, ih, List.append_assoc]

lemma seasonalFitBatch_eq (models : List BaseModelParams) :
    seasonalFitBatch models
      = models ++ (models.filter isSeasonalCapable).map toSModel := by
  rw [seasonalFitBatch, foldl_append_if]

/-- Claim C8: with seasonality detected, the fitted batch is every configured
model (on the deseasonalized data) followed by a suffixed copy of each
seasonal-capable model; two configured families with exactly one
seasonal-capable yield exactly 3 fitted artifacts. -/
theorem C8_seasonal_fit_batch (models : List BaseModelParams) :
    fitBatchWithData true models
      = (models ++ (models.filter isSeasonalCapable).map toSModel).map
          (fun m => (m, DataChoice.desea)) ∧
    (fitBatchWithData true models).length
      = models.length + (models.filter isSeasonalCapable).length ∧
    (∀ m : BaseModelParams, (toSModel m).model_name = m.model_name ++ "_smodel") ∧
    fitBatchWithData true [⟨"prophet"⟩, ⟨"arima"⟩]
      = [(⟨"prophet"⟩, DataChoice.desea), (⟨"arima"⟩, DataChoice.desea),
         (⟨"prophet_smodel"⟩, DataChoice.desea)] ∧
    (fitBatchWithData true [⟨"prophet"⟩, ⟨"arima"⟩]).length = 3 := by
  refine ⟨?_, ?_, fun m => rfl, ?_, ?_⟩
  · rw [fitBatchWithData, if_pos rfl, seasonalFitBatch_eq]
  · rw [fitBatchWithData, if_pos rfl, List.length_map, seasonalFitBatch_eq,
      List.length_append, List.length_map]
  · decide
  · decide

/-!
### Parameter validation

Embedded from `__init__` / `validate_params` (kats_ensemble.py lines
91-139).  `validate_params` runs during construction.  It raises on an
unsupported aggregation; silently falls back to `"additive"` on an invalid
decomposition method; raises when `seasonality_length` is set and exceeds
`len(data.time) // 2`; and the two executor checks never raise (they only
set instance attributes when the key is present with a non-None value).
The observable result of a successful validation is the decomposition
method in effect.
-/

/-- The constructor-relevant configuration record. -/
structure KEParams where
  aggregation : String
  decomposition_method : String
  seasonality_length : Option ℕ
deriving DecidableEq, Repr

/-- The decomposition method in effect after the lenient fallback
(lines 112-117). -/
def decompositionMethodOf (p : KEParams) : String :=
  if p.decomposition_method = "additive" ∨ p.decomposition_method = "multiplicative"
  then p.decomposition_method else "additive"

/-- `validate_params` (lines 101-139) on a series of `dataLen` points:
errors mirror the two `raise ValueError` sites; success returns the
decomposition method set on the instance. -/
def validate_params (dataLen : ℕ) (p : KEParams) : Except String String :=
  if ¬ (p.aggregation = "median" ∨ p.aggregation = "weightedavg") then
    Except.error "Only support median or weightedavg ensemble"
  else
    match p.seasonality_length with
    | some m =>
      if dataLen / 2 < m then
        Except.error "seasonality_length value cannot be larger than"
      else Except.ok (decompositionMethodOf p)
    | none => Except.ok (decompositionMethodOf p)

lemma validate_params_some_eq (dataLen : ℕ) (p : KEParams) (m : ℕ)
    (hagg : p.aggregation = "median" ∨ p.aggregation = "weightedavg")
    (hsl : p.seasonality_length = some m) :
    validate_params dataLen p
      = if dataLen / 2 < m then
          Except.error "seasonality_length value cannot be larger than"
        else Except.ok (decompositionMethodOf p) := by
  rw [validate_params, if_neg (not_not.mpr hagg), hsl]

lemma validate_params_none_eq (dataLen : ℕ) (p : KEParams)
    (hagg : p.aggregation = "median" ∨ p.aggregation = "weightedavg")
    (hsl : p.seasonality_length = none) :
    validate_params dataLen p = Except.ok (decompositionMethodOf p) := by
  rw [validate_params, if_neg (not_not.mpr hagg), hsl]

/-- Claim C9: with a supported aggregation mode, construction fails
validation exactly when `seasonality_length` is set and strictly exceeds
`dataLen / 2`; an unset or small enough `seasonality_length` passes, with the
effective decomposition method as the validated state. -/
theorem C9_seasonality_length_validation (dataLen : ℕ) (p : KEParams)
    (hagg : p.aggregation = "median" ∨ p.aggregation = "weightedavg") :
    ((∃ e, validate_params dataLen p = Except.error e) ↔
      (∃ m, p.seasonality_length = some m ∧ dataLen / 2 < m)) ∧
    (p.seasonality_length = none →
      validate_params dataLen p = Except.ok (decompositionMethodOf p)) ∧
    (∀ m, p.seasonality_length = some m → m ≤ dataLen / 2 →
      validate_params dataLen p = Except.ok (decompositionMethodOf p)) := by
  have hsome := fun m hsl => validate_params_some_eq dataLen p m hagg hsl
  have hnone := validate_params_none_eq dataLen p hagg
  refine ⟨?_, hnone, ?_⟩
  · cases hsl : p.seasonality_length with
    | none =>
      rw [hnone hsl]
      constructor
      · rintro ⟨e, he⟩; exact absurd he (by simp)
      · rintro ⟨m, hm, _⟩; exact absurd hm (by simp)
    | some m =>
      rw [hsome m hsl]
      by_cases hlt : dataLen / 2 < m
      · rw [if_pos hlt]
        exact ⟨fun _ => ⟨m, rfl, hlt⟩,
          fun _ => ⟨"seasonality_length value cannot be larger than", rfl⟩⟩
      · rw [if_neg hlt]
        constructor
        · rintro ⟨e, he⟩; exact absurd he (by simp)
        · rintro ⟨m', hm', hlt'⟩
          cases Option.some_inj.mp hm'
          exact absurd hlt' hlt
  · intro m hsl hle
    rw [hsome m hsl, if_neg (Nat.not_lt.mpr hle)]

/-- Witness for C9: a 10-point series with `seasonality_length = 6`
(exceeding `10 div 2 = 5`) fails validation. -/
theorem C9_seasonality_length_validation_witness :
    ∃ e, validate_params 10 ⟨"median", "additive", some 6⟩ = Except.error e :=
  (C9_seasonality_length_validation 10 ⟨"median", "additive", some 6⟩
    (Or.inl rfl)).1.mpr ⟨6, rfl, by decide⟩

/-!
### `fitExecutor` key handling in `fit`

Embedded from `validate_params` lines 134-139 and `fit` lines 304-306 and
324.  The params dictionary entry for `"fitExecutor"` is modelled by the
pair (`hasKey`, `value`); `value = none` models an explicit `None`.
`validate_params` sets the instance attribute `self.fitExecutor` only when
the key is present with a non-None value (otherwise the attribute lookup
falls back to the default bound method).  `fit` assigns the *local* variable
`fitExecutor` only when the key is absent, and then calls that local, so a
present key leaves the local unassigned and the call raises
`UnboundLocalError` before any executor runs.
-/

/-- Which executor ends up used. -/
inductive ExecutorChoice where
  | defaultExecutor : ExecutorChoice
  | custom : ExecutorChoice
deriving DecidableEq, Repr

/-- `self.fitExecutor` after `validate_params` (lines 134-139): the custom
value only when the key is present and non-None, else the default method. -/
def fitExecutorAttr (hasKey : Bool) (value : Option Unit) : ExecutorChoice :=
  if hasKey ∧ value.isSome then ExecutorChoice.custom else ExecutorChoice.defaultExecutor

/-- Outcome of `fit`. -/
inductive FitResult where
  | ok : ExecutorChoice → List (BaseModelParams × DataChoice) → FitResult
  | unboundLocalError : FitResult
deriving DecidableEq, Repr

/-- `fit` (lines 288-337) restricted to executor resolution and batch
construction: the local `fitExecutor` is assigned only when the key is
absent (lines 305-306); calling an unassigned local raises
`UnboundLocalError` before any model is fitted. -/
def fit (hasKey : Bool) (value : Option Unit) (seasonality : Bool)
    (models : List BaseModelParams) : FitResult :=
  match (if hasKey then none else some (fitExecutorAttr hasKey value) :
      Option ExecutorChoice) with
  | none => FitResult.unboundLocalError
  | some ex => FitResult.ok ex (fitBatchWithData seasonality models)

/-- Claim C10: with `params["fitExecutor"] = None`, construction succeeds
(the executor check raises nothing and leaves the attribute at the default),
but `fit` hits an unbound local and fits no model; with the key absent,
`fit` falls back to the default executor. -/
theorem C10_fit_executor_none_key (dataLen : ℕ) (p : KEParams)
    (seasonality : Bool) (models : List BaseModelParams)
    (hagg : p.aggregation = "median" ∨ p.aggregation = "weightedavg")
    (hsl : p.seasonality_length = none) :
    validate_params dataLen p = Except.ok (decompositionMethodOf p) ∧
    fitExecutorAttr true none = ExecutorChoice.defaultExecutor ∧
    fit true none seasonality models = FitResult.unboundLocalError ∧
    (∀ v : Option Unit, fit false v seasonality models
      = FitResult.ok ExecutorChoice.defaultExecutor (fitBatchWithData seasonality models)) := by
  refine ⟨?_, rfl, rfl, fun v => rfl⟩
  exact validate_params_none_eq dataLen p hagg hsl

/-- Witness for C10 on a concrete configuration with an explicit `None`
executor entry. -/
theorem C10_fit_executor_none_key_witness :
    fit true none true [⟨"prophet"⟩] = FitResult.unboundLocalError :=
  (C10_fit_executor_none_key 10 ⟨"median", "additive", none⟩ true [⟨"prophet"⟩]
    (Or.inl rfl) rfl).2.2.1

end KatsEnsemble
